import Mathlib

/-!
Shallow embedding of the core of the `python-search-engine` repository
(`src/engine/db.py`, `src/engine/search.py`, `src/engine/advanced_crawler.py`)
and proofs about the claims of its specification.

Conventions of the embedding:
* Python strings are Lean `String`s; where character-level slicing matters
  (tokenizer, snippet generation) we work over `List Char` (the ASCII fragment
  of Python text handling).
* SQLite tables are lists of row structures; `INSERT OR REPLACE` is modelled by
  filtering out the conflicting rows and appending the fresh row.  SQLite
  allocates the implicit rowid of an `INSERT` as one plus the largest rowid
  currently in use, before `REPLACE` conflict resolution deletes the old row.
* Python `float` frequencies (`count / total`) are modelled exactly as `Rat`.
* Wall-clock timestamp columns (`indexed_date`, `last_updated`, `visit_date`)
  carry no logic in the claims and are omitted from the row models.
* `queue.PriorityQueue` is modelled by its underlying list of entries
  (`put` appends); heap-internal ordering is abstracted, and snapshot
  properties are stated about the entry lists themselves.
-/

namespace SearchRepo

/-! ## Tokenizer (`search.py`, `SearchEngine._tokenize`) -/

/-- Python regex word character, ASCII fragment of `\w`. -/
def isWordChar (c : Char) : Bool := c.isAlphanum || c == '_'

/-- Helper for `wordRuns`: accumulate the current (reversed) run of word
characters and emit maximal runs, mirroring `re.findall` over `\w+`. -/
def wordRunsAux : List Char → List Char → List (List Char)
  | cur, [] => if cur.isEmpty then [] else [cur.reverse]
  | cur, c :: cs =>
    if isWordChar c then wordRunsAux (c :: cur) cs
    else if cur.isEmpty then wordRunsAux [] cs
    else cur.reverse :: wordRunsAux [] cs

/-- `re.findall` of word-character runs over a character list. -/
def wordRuns (s : List Char) : List (List Char) := wordRunsAux [] s

/-- The fixed stop-word set of `SearchEngine._tokenize`. -/
def stop_words : List (List Char) :=
  ["a", "an", "the", "and", "or", "but", "is", "are", "in", "on", "of",
   "to", "for", "with"].map String.toList

/-- `SearchEngine._tokenize`: lowercase, split on non-word characters, keep
words longer than one character that are not stop words (order and repeats
preserved). -/
def tokenize (text : List Char) : List (List Char) :=
  (wordRuns (text.map Char.toLower)).filter
    (fun w => decide (1 < w.length) && !(stop_words.contains w))

/-- Python substring containment (`needle in hay`): the needle is a prefix of
some suffix of the hay. -/
def pyIn (needle : List Char) : List Char → Bool
  | [] => needle.isPrefixOf []
  | c :: t => needle.isPrefixOf (c :: t) || pyIn needle t

/-- Python `str.split(sep)` for a one-character separator: always at least one
segment, one more per separator occurrence. -/
def splitOnChar (sep : Char) : List Char → List (List Char)
  | [] => [[]]
  | c :: cs =>
    match splitOnChar sep cs with
    | [] => [[]]
    | r :: rs => if c == sep then [] :: r :: rs else (c :: r) :: rs

/-! ## Store model (`db.py`, `SearchDatabase`) -/

/-- A row of the `documents` table (timestamp columns omitted). -/
structure DocRow where
  id : Nat
  url : String
  title : String
  content : String
  domain : String
  status : Nat
deriving DecidableEq, Repr

/-- A row of the `index_entries` table. -/
structure Posting where
  word : List Char
  doc_id : Nat
  frequency : Rat
  importance : Rat
deriving DecidableEq, Repr

/-- A row of the `crawler_visits` table (visit date omitted). -/
structure VisitRow where
  url : String
  depth : Nat
  success : Bool
deriving DecidableEq, Repr

/-- The store state: the tables the claims are about, plus the `doc_count`
metadata value. -/
structure DBState where
  documents : List DocRow
  index_entries : List Posting
  doc_count : Nat
  crawler_visits : List VisitRow
deriving DecidableEq, Repr

/-- The freshly initialised database (`init_db` seeds `doc_count` with 0). -/
def emptyDB : DBState := ⟨[], [], 0, []⟩

/-- Largest document id currently in use (0 on an empty table); this is the
basis of SQLite implicit rowid allocation. -/
def maxDocId (docs : List DocRow) : Nat := docs.foldr (fun d m => max d.id m) 0

/-- `SearchDatabase.add_document`:
`INSERT OR REPLACE INTO documents (url, ...)` followed by the metadata update
`UPDATE metadata SET value = value + 1 WHERE key = 'doc_count' AND NOT EXISTS
(SELECT 1 FROM documents WHERE url = ? AND id != ?)`, returning
`cursor.lastrowid`.  The fresh rowid is allocated as `maxDocId + 1` before the
conflicting row is deleted by `REPLACE`. -/
def add_document (db : DBState) (url title content domain : String) :
    DBState × Nat :=
  let newId := maxDocId db.documents + 1
  let docs := db.documents.filter (fun d => d.url != url) ++
    [⟨newId, url, title, content, domain, 1⟩]
  let inc := !(docs.any (fun d => d.url == url && d.id != newId))
  let dc := if inc then db.doc_count + 1 else db.doc_count
  ({ db with documents := docs, doc_count := dc }, newId)

/-- `SearchDatabase.update_index`: delete all `index_entries` rows of
`doc_id`, then insert one row per word; the insert names only
`(word, doc_id, frequency)`, so `importance` takes its schema default 1.0. -/
def update_index (db : DBState) (doc_id : Nat)
    (word_frequencies : List (List Char × Rat)) : DBState :=
  { db with index_entries :=
      db.index_entries.filter (fun p => p.doc_id != doc_id) ++
        word_frequencies.map (fun wf => ⟨wf.1, doc_id, wf.2, 1⟩) }

/-- `SearchDatabase.is_url_visited`. -/
def is_url_visited (db : DBState) (url : String) : Bool :=
  db.crawler_visits.any (fun v => v.url == url)

/-- `SearchDatabase.mark_url_visited`: `INSERT OR REPLACE` on the
`crawler_visits` table (keyed by url). -/
def mark_url_visited (db : DBState) (url : String) (depth : Nat)
    (success : Bool) : DBState :=
  { db with crawler_visits :=
      db.crawler_visits.filter (fun v => v.url != url) ++ [⟨url, depth, success⟩] }

/-! ## Indexing path (`search.py`, `SearchEngine.add_document`, `use_db` mode) -/

/-- Helper for `distinctKeys`: drop words already seen. -/
def distinctKeysAux (seen : List (List Char)) : List (List Char) → List (List Char)
  | [] => []
  | w :: ws =>
    if seen.contains w then distinctKeysAux seen ws
    else w :: distinctKeysAux (w :: seen) ws

/-- First-occurrence-ordered distinct keys, as in `collections.Counter`
(a Python dict keyed in insertion order). -/
def distinctKeys (l : List (List Char)) : List (List Char) := distinctKeysAux [] l

/-- The `word_frequencies` dict built by `SearchEngine.add_document`:
per-term count over `tokenize(title + " " + content)` divided by the total
token count (the exact rational `count / total`). -/
def word_frequencies (title content : String) : List (List Char × Rat) :=
  let words := tokenize (title ++ " " ++ content).toList
  (distinctKeys words).map
    (fun w => (w, mkRat (words.count w) words.length))

/-- The postings `update_index` inserts for one engine `add_document` call. -/
def newPostings (doc_id : Nat) (title content : String) : List Posting :=
  (word_frequencies title content).map (fun wf => ⟨wf.1, doc_id, wf.2, 1⟩)

/-- `SearchEngine.add_document` in database mode: empty url or content is a
no-op returning `None`; otherwise `db.add_document`, then—when the token list
is non-empty—`db.update_index` with the normalized frequencies. -/
def engineAddDocument (db : DBState) (url title content domain : String) :
    DBState × Option Nat :=
  if url == "" || content == "" then (db, none)
  else
    let r := add_document db url title content domain
    let words := tokenize (title ++ " " ++ content).toList
    let db2 := if words.isEmpty then r.1 else
      update_index r.1 r.2 (word_frequencies title content)
    (db2, some r.2)

/-- The postings whose `doc_id` resolves to the document currently holding
`url` (the join used by `search`). -/
def postingsForUrl (db : DBState) (url : String) : List Posting :=
  db.index_entries.filter
    (fun p => db.documents.any (fun d => d.id == p.doc_id && d.url == url))

/-- Every posting's `doc_id` is bounded by the largest document id; this holds
for every store reachable through `engineAddDocument`. -/
def IndexBounded (db : DBState) : Prop :=
  ∀ p ∈ db.index_entries, p.doc_id ≤ maxDocId db.documents

instance (db : DBState) : Decidable (IndexBounded db) := by
  unfold IndexBounded; infer_instance

/-! ## Snippet generation (`db.py`, `SearchDatabase._generate_snippet`) -/

/-- Number of query tokens found in the 100-character window of the lowered
content starting at `i` (`sum(1 for token in query_tokens if token in window)`). -/
def windowMatches (content_lower : List Char) (query_tokens : List (List Char))
    (i : Nat) : Nat :=
  (query_tokens.filter (fun t => pyIn t ((content_lower.drop i).take 100))).length

/-- The `(best_start, max_matches)` pair computed by the window scan over
`range(len(content) - 50)`; ties keep the earliest window. -/
def bestStart (content_lower : List Char) (query_tokens : List (List Char))
    (n : Nat) : Nat × Nat :=
  (List.range n).foldl
    (fun bm i =>
      let m := windowMatches content_lower query_tokens i
      if m > bm.2 then (i, m) else bm)
    (0, 0)

def ellipsis : List Char := "...".toList

/-- `SearchDatabase._generate_snippet` over character lists: pick the best
window, then return `content[max(0, best_start - 20) : min(len, best_start +
max_length)]` with ellipses on truncated ends. -/
def generate_snippet (content : List Char) (query_tokens : List (List Char))
    (max_length : Nat) : List Char :=
  if content.isEmpty then []
  else
    let content_lower := content.map Char.toLower
    let bs := (bestStart content_lower query_tokens (content.length - 50)).1
    let start := bs - 20
    let stop := min content.length (bs + max_length)
    let snippet := (content.drop start).take (stop - start)
    let snippet := if 0 < start then ellipsis ++ snippet else snippet
    if stop < content.length then snippet ++ ellipsis else snippet

/-! ## URL priority (`advanced_crawler.py`, `SmartCrawler.compute_url_priority`) -/

/-- The components of `urllib.parse.urlparse` that the priority computation
reads. -/
structure ParsedUrl where
  netloc : String
  path : String
  query : String
deriving DecidableEq, Repr

/-- Python dict lookup over an association list. -/
def lookupStr (m : List (String × Int)) (k : String) : Option Int :=
  (m.find? (fun e => e.1 == k)).map Prod.snd

/-- `SmartCrawler.compute_url_priority`; `parsed = none` models a `urlparse`
exception, handled by the blanket `except` returning 50.  Settings declare
`domain_importance` as a host-to-integer mapping. -/
def compute_url_priority (domain_importance : List (String × Int))
    (parsed : Option ParsedUrl) (depth : Nat) (source_importance : Int) : Int :=
  match parsed with
  | none => 50
  | some u =>
    let p1 : Int := (depth * 10 : Nat)
    let p2 : Int := match lookupStr domain_importance u.netloc with
      | some imp => p1 - imp
      | none => p1
    let query_params : Nat :=
      if u.query == "" then 0 else (splitOnChar '&' u.query.toList).length
    let p3 := p2 + query_params
    let path_segments : Nat := (splitOnChar '/' u.path.toList).length
    let p4 := p3 + (path_segments / 2 : Nat)
    let p5 := p4 - source_importance
    max 1 (min 100 p5)

/-! ## Crawler state (`advanced_crawler.py`, `SmartCrawler`) -/

/-- The counters of `crawl_stats` (display-only fields such as `recent_urls`,
`content_types` and the wall-clock `start_time` are omitted; `max_depth` is
the value the dict holds while a crawl runs). -/
structure CrawlStats where
  crawled : Nat
  queued : Nat
  indexed : Nat
  errors : Nat
  skipped_duplicates : Nat
  robots_blocked : Nat
  domains_crawled : Nat
  max_depth : Nat
  status : String
  current_url : String
deriving DecidableEq, Repr

/-- A `(priority, (url, depth))` entry of the crawl frontier. -/
structure QueueEntry where
  priority : Int
  url : String
  depth : Nat
deriving DecidableEq, Repr

/-- The mutable crawler state the claims are about: the in-memory visited set,
the frontier (as its entry list), the stats, the per-host last-access map and
the content-fingerprint table. -/
structure CrawlerState where
  visited_urls : List String
  queue : List QueueEntry
  crawl_stats : CrawlStats
  domain_access_times : List (String × Int)
  content_fingerprints : List (String × String)
deriving DecidableEq, Repr

/-- `SmartCrawler.is_duplicate_content`: a known fingerprint is reported as a
duplicate and the table is left untouched (the first url is kept); an unknown
fingerprint is recorded with its url. -/
def is_duplicate_content (st : CrawlerState) (fingerprint url : String) :
    Bool × CrawlerState :=
  if st.content_fingerprints.any (fun e => e.1 == fingerprint) then (true, st)
  else (false, { st with content_fingerprints :=
    st.content_fingerprints ++ [(fingerprint, url)] })

/-- State effect of `SmartCrawler._apply_rate_limiting`: record `now` as the
host's last access time (the sleep itself is real-time behaviour). -/
def apply_rate_limiting (st : CrawlerState) (domain : String) (now : Int) :
    CrawlerState :=
  { st with domain_access_times :=
      st.domain_access_times.filter (fun e => e.1 != domain) ++ [(domain, now)] }

/-- The non-HTML extension filter of `_add_links_to_queue`. -/
def badExtension (path : String) : Bool :=
  [".pdf", ".jpg", ".jpeg", ".png", ".gif", ".zip", ".exe", ".doc", ".docx"].any
    (fun ext => ext.toList.isSuffixOf (path.toList.map Char.toLower))

/-- One iteration of the `_add_links_to_queue` loop; `parse` models
`urlparse`, with `none` for a raising parse (the per-link `except` skips the
link). -/
def addLink (di : List (String × Int)) (parse : String → Option ParsedUrl)
    (force : Bool) (db : DBState) (next_depth : Nat)
    (st : CrawlerState) (link : String × String) : CrawlerState :=
  if st.visited_urls.contains link.1 then st
  else if !force && is_url_visited db link.1 then st
  else if !("http://".toList.isPrefixOf link.1.toList ||
      "https://".toList.isPrefixOf link.1.toList) then st
  else
    match parse link.1 with
    | none => st
    | some u =>
      if badExtension u.path then st
      else
        let priority := compute_url_priority di (some u) next_depth 5
        { st with
          queue := st.queue ++ [⟨priority, link.1, next_depth⟩],
          crawl_stats := { st.crawl_stats with
            queued := st.crawl_stats.queued + 1 } }

/-- `SmartCrawler._add_links_to_queue`: at most 100 links per page, each
filtered and pushed at depth `current_depth + 1`. -/
def add_links_to_queue (di : List (String × Int))
    (parse : String → Option ParsedUrl) (force : Bool) (db : DBState)
    (st : CrawlerState) (links : List (String × String)) (current_depth : Nat) :
    CrawlerState :=
  (links.take 100).foldl (addLink di parse force db (current_depth + 1)) st

/-- The domain-counting prologue of `SmartCrawler._process_page`: the first
page of a domain adds `domain:host` to the visited set and bumps
`domains_crawled`. -/
def countDomain (st : CrawlerState) (domain : String) : CrawlerState :=
  let domainKey := "domain:" ++ domain
  if st.visited_urls.contains domainKey then st
  else { st with
    visited_urls := st.visited_urls ++ [domainKey],
    crawl_stats := { st.crawl_stats with
      domains_crawled := st.crawl_stats.domains_crawled + 1 } }

/-- `SmartCrawler._process_page` (the `_fetch_page`/`_process_page` pipeline):
domain counting, content-type and length gates, duplicate-fingerprint gate,
then indexing and link extraction.  `fp` models
`compute_content_fingerprint(main_content, title)` (an MD5 digest) and
`extract` models `extract_text_content(content, url)`. -/
def process_page (fp : String → String → String)
    (extract : String → String → String × String)
    (di : List (String × Int)) (parse : String → Option ParsedUrl)
    (force : Bool) (st0 : CrawlerState) (db : DBState)
    (url domain content contentType : String) (depth : Nat)
    (links : List (String × String)) : CrawlerState × DBState :=
  let st := countDomain st0 domain
  if !("text/html".toList.isPrefixOf (contentType.toList.map Char.toLower)) then (st, db)
  else if content.length < 100 then (st, db)
  else
    let te := extract content url
    let f := fp te.2 te.1
    let r := is_duplicate_content st f url
    if r.1 then
      ({ r.2 with crawl_stats := { r.2.crawl_stats with
          skipped_duplicates := r.2.crawl_stats.skipped_duplicates + 1 } }, db)
    else
      let db2 := (engineAddDocument db url te.1 te.2 domain).1
      let st2 := { r.2 with crawl_stats := { r.2.crawl_stats with
        indexed := r.2.crawl_stats.indexed + 1 } }
      if depth < st2.crawl_stats.max_depth then
        (add_links_to_queue di parse force db2 st2 links depth, db2)
      else (st2, db2)

/-- Outcome of the direct `requests.get` in `_crawl_thread`: either a
`RequestException` or a response. -/
inductive FetchOutcome where
  | exn
  | ok (status : Nat) (contentType : String) (content : String)
deriving DecidableEq, Repr

/-- One iteration of the `_crawl_thread` drain loop, after `queue.get`
returned `(priority, (url, depth))`.  `robots` is the outcome of
`is_allowed_by_robots` (`none` models an exception in the robots check, which
the loop logs and then proceeds past); the returned `Bool` records whether an
HTTP fetch of `url` was performed. -/
def crawl_thread_step (extract : String → String → String × String)
    (di : List (String × Int)) (parse : String → Option ParsedUrl)
    (force : Bool) (robots : Option Bool) (fetch : FetchOutcome) (now : Int)
    (st : CrawlerState) (db : DBState) (url domain : String) (depth : Nat)
    (links : List (String × String)) : CrawlerState × DBState × Bool :=
  if st.visited_urls.contains url then (st, db, false)
  else if !force && is_url_visited db url then
    ({ st with visited_urls := st.visited_urls ++ [url] }, db, false)
  else
    let st := { st with crawl_stats := { st.crawl_stats with current_url := url } }
    if robots == some false then
      ({ st with
          crawl_stats := { st.crawl_stats with
            robots_blocked := st.crawl_stats.robots_blocked + 1 },
          visited_urls := st.visited_urls ++ [url] }, db, false)
    else
      let st := apply_rate_limiting st domain now
      match fetch with
      | .exn =>
        ({ st with
            crawl_stats := { st.crawl_stats with
              errors := st.crawl_stats.errors + 1 },
            visited_urls := st.visited_urls ++ [url] }, db, true)
      | .ok status contentType content =>
        if status == 200 then
          let st := { st with
            visited_urls := st.visited_urls ++ [url],
            crawl_stats := { st.crawl_stats with
              crawled := st.crawl_stats.crawled + 1 } }
          if !(pyIn "text/html".toList (contentType.toList.map Char.toLower) ||
              pyIn "application/xhtml+xml".toList (contentType.toList.map Char.toLower)) then
            (st, db, true)
          else
            let te := extract content url
            let db2 := (engineAddDocument db url te.1 te.2 domain).1
            let st := { st with crawl_stats := { st.crawl_stats with
              indexed := st.crawl_stats.indexed + 1 } }
            if depth < st.crawl_stats.max_depth then
              (add_links_to_queue di parse force db2 st links depth, db2, true)
            else (st, db2, true)
        else
          ({ st with
              crawl_stats := { st.crawl_stats with
                errors := st.crawl_stats.errors + 1 },
              visited_urls := st.visited_urls ++ [url] }, db, true)

/-! ## State snapshot (`advanced_crawler.py`, `save_state` / `load_state`) -/

/-- The pickled state dict; each key may be absent in a hand-crafted or
truncated record. -/
structure StateRecord where
  visited_urls : Option (List String)
  queue : Option (List QueueEntry)
  crawl_stats : Option CrawlStats
  domain_access_times : Option (List (String × Int))
  content_fingerprints : Option (List (String × String))
deriving DecidableEq, Repr

/-- A snapshot file: missing, unreadable (gzip/pickle failure), or a state
record. -/
inductive SnapshotFile where
  | missing
  | corrupt
  | record (r : StateRecord)
deriving DecidableEq, Repr

/-- `SmartCrawler.save_state`: write the five-field dict (file I/O assumed to
succeed) and return `True`. -/
def save_state (st : CrawlerState) : SnapshotFile × Bool :=
  (SnapshotFile.record ⟨some st.visited_urls, some st.queue, some st.crawl_stats,
    some st.domain_access_times, some st.content_fingerprints⟩, true)

/-- `SmartCrawler.load_state`: restore the five fields in source order; any
failure returns `False` through the blanket `except`, leaving whatever was
already assigned in place.  Note `self.queue = PriorityQueue()` executes
before `state["queue"]` is read. -/
def load_state (st : CrawlerState) (file : SnapshotFile) : Bool × CrawlerState :=
  match file with
  | .missing => (false, st)
  | .corrupt => (false, st)
  | .record r =>
    match r.visited_urls with
    | none => (false, st)
    | some v =>
      let st1 := { st with visited_urls := v }
      let st2 := { st1 with queue := [] }
      match r.queue with
      | none => (false, st2)
      | some q =>
        let st3 := { st2 with queue := q.foldl (fun acc item => acc ++ [item]) [] }
        match r.crawl_stats with
        | none => (false, st3)
        | some cs =>
          let st4 := { st3 with crawl_stats := cs }
          match r.domain_access_times with
          | none => (false, st4)
          | some da =>
            let st5 := { st4 with domain_access_times := da }
            match r.content_fingerprints with
            | none => (false, st5)
            | some cf => (true, { st5 with content_fingerprints := cf })

/-! ## Concrete fixtures for counterexamples and witnesses -/

/-- Stats of a freshly started crawl (`max_depth = 2`). -/
def sampleStats : CrawlStats := ⟨0, 0, 0, 0, 0, 0, 0, 2, "running", ""⟩

/-- A crawler state at the start of a run. -/
def sampleState : CrawlerState := ⟨[], [], sampleStats, [], []⟩

/-- A fingerprint function that hashes every page to `"f1"` (two pages with
equal normalized text have equal MD5 digests). -/
def constFingerprint : String → String → String := fun _ _ => "f1"

/-- An extraction function returning title `"T"` and the raw content as main
text. -/
def sampleExtract : String → String → String × String := fun c _ => ("T", c)

/-- A parser sending every url to host `h` with root path. -/
def sampleParse : String → Option ParsedUrl := fun _ => some ⟨"h", "/", ""⟩

/-- 182 characters with a single `t` at index 21 followed by `x`s.  The
100-character query term `t` + 99 `x`s fits exactly one window, the one
starting at 21, so `best_start = 21` and the snippet spans
`[1, 181)` plus two ellipses: 186 characters, exceeding `max_len + 6`. -/
def cexContent : List Char :=
  List.replicate 21 'y' ++ ['t'] ++ List.replicate 160 'x'

/-- The 100-character query term of the snippet counterexample. -/
def cexToken : List Char := 't' :: List.replicate 99 'x'

/-! ## Basic lemmas about the store model -/

theorem le_maxDocId_of_mem {d : DocRow} : ∀ {l : List DocRow}, d ∈ l →
    d.id ≤ maxDocId l := by
  intro l
  induction l with
  | nil => intro h; cases h
  | cons e l ih =>
    intro h
    rcases List.mem_cons.mp h with rfl | hmem
    · exact Nat.le_max_left _ _
    · exact Nat.le_trans (ih hmem) (Nat.le_max_right _ _)

theorem maxDocId_append (l1 l2 : List DocRow) :
    maxDocId (l1 ++ l2) = max (maxDocId l1) (maxDocId l2) := by
  induction l1 with
  | nil => simp [maxDocId]
  | cons d l ih => simp [maxDocId, List.foldr] at ih ⊢; omega

theorem maxDocId_filter_le (p : DocRow → Bool) (l : List DocRow) :
    maxDocId (l.filter p) ≤ maxDocId l := by
  induction l with
  | nil => exact Nat.le_refl _
  | cons d l ih =>
    by_cases h : p d = true <;>
      simp [maxDocId, List.filter, h] at ih ⊢ <;> omega

/-- After the `INSERT OR REPLACE` of `add_document`, no row with the inserted
url carries an id different from the fresh one, so the `NOT EXISTS` guard of
the `doc_count` update is always satisfied. -/
theorem add_document_guard (db : DBState) (url title content domain : String) :
    ((db.documents.filter (fun d : DocRow => d.url != url) ++
        ([⟨maxDocId db.documents + 1, url, title, content, domain, 1⟩] : List DocRow)).any
      (fun d => d.url == url && d.id != maxDocId db.documents + 1)) = false := by
  rw [List.any_eq_false]
  intro d hd
  rcases List.mem_append.mp hd with h | h
  · have hne := List.of_mem_filter h
    simp only [bne_iff_ne, ne_eq] at hne
    simp [hne]
  · simp only [List.mem_singleton] at h
    subst h
    simp

/-- The `doc_count` guard of `add_document` can never fire: the counter
increments on every call. -/
theorem add_document_doc_count (db : DBState) (url title content domain : String) :
    (add_document db url title content domain).1.doc_count = db.doc_count + 1 := by
  have hg := add_document_guard db url title content domain
  simp [add_document, hg]

theorem add_document_documents (db : DBState) (url title content domain : String) :
    (add_document db url title content domain).1.documents =
      db.documents.filter (fun d => d.url != url) ++
        [⟨maxDocId db.documents + 1, url, title, content, domain, 1⟩] := rfl

theorem add_document_id (db : DBState) (url title content domain : String) :
    (add_document db url title content domain).2 = maxDocId db.documents + 1 := rfl

/-- Rows that survive the `url` filter and then get filtered back by `url`
yield nothing. -/
theorem filter_ne_filter_eq (url : String) (l : List DocRow) :
    (l.filter (fun d => d.url != url)).filter (fun d => d.url == url) = [] := by
  induction l with
  | nil => rfl
  | cons d l ih =>
    by_cases h : d.url = url
    · simp [List.filter_cons, h, ih]
    · have hb : (d.url != url) = true := by simp [h]
      have hb2 : (d.url == url) = false := by simp [h]
      simp [List.filter_cons, hb, hb2, ih]

/-! ## Claim C1 -/

/-- Claim C1 counterexample: re-adding the only document (url `"a"`, previous
`doc_id` 1) returns the fresh `doc_id` 2, so the existing `doc_id` is not
preserved on conflict. -/
theorem claim1_counterexample :
    (add_document emptyDB "a" "t" "c" "h").2 = 1 ∧
    (add_document (add_document emptyDB "a" "t" "c" "h").1 "a" "t2" "c2" "h").2 = 2 := by
  decide

/-- Claim C1 (amended): re-adding a url already present returns a fresh
`doc_id`, namely one plus the largest existing document id — never the id the
url had before — and afterwards exactly one document row exists for that
url. -/
theorem claim1_theorem (db : DBState) (url title content domain : String)
    (d : DocRow) (hd : d ∈ db.documents) (_hurl : d.url = url) :
    (add_document db url title content domain).2 = maxDocId db.documents + 1 ∧
    d.id ≠ (add_document db url title content domain).2 ∧
    ((add_document db url title content domain).1.documents.filter
      (fun e => e.url == url)).length = 1 := by
  refine ⟨rfl, ?_, ?_⟩
  · rw [add_document_id]
    have := le_maxDocId_of_mem hd
    omega
  · rw [add_document_documents, List.filter_append, filter_ne_filter_eq]
    simp [List.filter]

/-- Witness for `claim1_theorem` at a one-document store. -/
theorem claim1_witness :
    (add_document (DBState.mk [⟨1, "a", "t", "c", "h", 1⟩] [] 1 []) "a" "t2" "c2" "h").2 =
        maxDocId [⟨1, "a", "t", "c", "h", 1⟩] + 1 ∧
    (1 : Nat) ≠ (add_document (DBState.mk [⟨1, "a", "t", "c", "h", 1⟩] [] 1 []) "a" "t2" "c2" "h").2 ∧
    ((add_document (DBState.mk [⟨1, "a", "t", "c", "h", 1⟩] [] 1 []) "a" "t2" "c2" "h").1.documents.filter
      (fun e => e.url == "a")).length = 1 := by
  have h := claim1_theorem (DBState.mk [⟨1, "a", "t", "c", "h", 1⟩] [] 1 [])
    "a" "t2" "c2" "h" ⟨1, "a", "t", "c", "h", 1⟩ (by decide) rfl
  exact h

/-! ## Claim C2 -/

/-- Claim C2 is violated by the code: after re-adding the same url the
`doc_count` metadata reads 2 while only one active document row exists.  The
`NOT EXISTS` guard that was meant to suppress the increment can never fire
because `INSERT OR REPLACE` has already deleted the old row
(see `add_document_doc_count`). -/
theorem claim2_bug :
    (add_document (add_document emptyDB "a" "t" "c" "h").1 "a" "t" "c" "h").1.doc_count = 2 ∧
    ((add_document (add_document emptyDB "a" "t" "c" "h").1 "a" "t" "c" "h").1.documents.filter
      (fun d => d.status == 1)).length = 1 := by
  decide

/-! ## Claim C4 -/

/-- Claim C4 counterexample: indexing title `"hello"`, body `"hello world"`
through the engine path stores the posting for `hello` with importance 1,
although `hello` occurs in the tokenized title (the claim demands 1.5). -/
theorem claim4_counterexample :
    "hello".toList ∈ tokenize "hello".toList ∧
    (((engineAddDocument emptyDB "u" "hello" "hello world" "h").1.index_entries.filter
      (fun p => p.word == "hello".toList)).map Posting.importance) = [1] := by
  decide

/-- Claim C4 (amended): every posting the engine `add_document` path inserts
carries importance 1.0 — the `update_index` insert omits the importance
column, so the schema default applies and title terms receive no boost. -/
theorem claim4_theorem (db : DBState) (url title content domain : String) :
    ∀ p ∈ (engineAddDocument db url title content domain).1.index_entries,
      p ∈ db.index_entries ∨ p.importance = 1 := by
  intro p hp
  simp only [engineAddDocument] at hp
  split at hp
  · exact Or.inl hp
  · split at hp
    · exact Or.inl hp
    · simp only [update_index, List.mem_append] at hp
      rcases hp with h | h
      · exact Or.inl (List.mem_of_mem_filter h)
      · right
        rcases List.mem_map.mp h with ⟨wf, _, rfl⟩
        rfl

/-! ## Claim C3 -/

theorem add_document_index (db : DBState) (url title content domain : String) :
    (add_document db url title content domain).1.index_entries =
      db.index_entries := rfl

theorem filter_index_of_bounded {db : DBState} (h : IndexBounded db) {n : Nat}
    (hn : maxDocId db.documents < n) :
    db.index_entries.filter (fun p => p.doc_id != n) = db.index_entries := by
  rw [List.filter_eq_self]
  intro p hp
  have hle := h p hp
  simp only [bne_iff_ne, ne_eq]
  omega

/-- Shape of the document table after one engine `add_document` call. -/
theorem engineAdd_documents (db : DBState) (url title content domain : String)
    (hu : url ≠ "") (hc : content ≠ "") :
    (engineAddDocument db url title content domain).1.documents =
      db.documents.filter (fun d : DocRow => d.url != url) ++
        [⟨maxDocId db.documents + 1, url, title, content, domain, 1⟩] := by
  simp only [engineAddDocument]
  rw [if_neg (by simp [hu, hc])]
  split <;> rfl

/-- The token list is the same whether computed in `engineAddDocument` or in
`word_frequencies`; an empty token list yields no postings. -/
theorem newPostings_eq_nil_of_isEmpty {title content : String}
    (h : (tokenize (title ++ " " ++ content).toList).isEmpty = true) (n : Nat) :
    newPostings n title content = [] := by
  rw [List.isEmpty_iff] at h
  simp only [newPostings, word_frequencies]
  rw [h]
  rfl

/-- Shape of the inverted index after one engine `add_document` call, for a
store whose postings are bounded by the largest document id. -/
theorem engineAdd_index (db : DBState) (hwf : IndexBounded db)
    (url title content domain : String) (hu : url ≠ "") (hc : content ≠ "") :
    (engineAddDocument db url title content domain).1.index_entries =
      db.index_entries ++ newPostings (maxDocId db.documents + 1) title content := by
  simp only [engineAddDocument]
  rw [if_neg (by simp [hu, hc])]
  split
  · next hempty =>
    rw [newPostings_eq_nil_of_isEmpty hempty, List.append_nil]
    rfl
  · simp only [update_index, add_document_index, add_document_id]
    rw [filter_index_of_bounded hwf (Nat.lt_succ_self _)]
    rfl

theorem engineAdd_maxDocId (db : DBState) (url title content domain : String)
    (hu : url ≠ "") (hc : content ≠ "") :
    maxDocId (engineAddDocument db url title content domain).1.documents =
      maxDocId db.documents + 1 := by
  rw [engineAdd_documents db url title content domain hu hc, maxDocId_append]
  have h1 := maxDocId_filter_le (fun d : DocRow => d.url != url) db.documents
  have h2 : maxDocId [⟨maxDocId db.documents + 1, url, title, content, domain, 1⟩] =
      maxDocId db.documents + 1 := by
    show max (maxDocId db.documents + 1) 0 = maxDocId db.documents + 1
    omega
  rw [h2]
  omega

theorem newPostings_doc_id {n : Nat} {title content : String} {p : Posting}
    (h : p ∈ newPostings n title content) : p.doc_id = n := by
  rcases List.mem_map.mp h with ⟨wf, _, rfl⟩
  rfl

/-- `engineAddDocument` preserves the posting bound. -/
theorem engineAdd_bounded (db : DBState) (hwf : IndexBounded db)
    (url title content domain : String) :
    IndexBounded (engineAddDocument db url title content domain).1 := by
  by_cases hg : (url == "" || content == "") = true
  · intro p hp
    simp only [engineAddDocument, if_pos hg] at hp ⊢
    exact hwf p hp
  · have hu : url ≠ "" := by simp at hg; exact hg.1
    have hc : content ≠ "" := by simp at hg; exact hg.2
    intro p hp
    rw [engineAdd_index db hwf url title content domain hu hc] at hp
    rw [engineAdd_maxDocId db url title content domain hu hc]
    rcases List.mem_append.mp hp with h | h
    · have := hwf p h
      omega
    · rw [newPostings_doc_id h]

/-- The document-resolution test of `postingsForUrl` over a table whose only
row holding `url` is `row`. -/
theorem any_id_url (A : List DocRow) (row : DocRow) (url : String)
    (hA : ∀ d ∈ A, d.url ≠ url) (hrow : row.url = url) (k : Nat) :
    ((A ++ [row]).any (fun d => d.id == k && d.url == url)) = (row.id == k) := by
  rw [List.any_append]
  have h1 : A.any (fun d => d.id == k && d.url == url) = false := by
    rw [List.any_eq_false]
    intro d hd
    simp [hA d hd]
  rw [h1]
  simp [hrow]

/-- Claim C3 counterexample: index `"alpha beta"` under url `"a"`, then
re-index `"gamma"` under the same url.  The posting for `alpha` produced by
the first call is still present in `index_entries` afterwards (under the
orphaned doc id 1), so residue from the first indexing remains. -/
theorem claim3_counterexample :
    (Posting.mk "alpha".toList 1 (mkRat 1 2) 1) ∈
        (engineAddDocument emptyDB "a" "t" "alpha beta" "h").1.index_entries ∧
    (Posting.mk "alpha".toList 1 (mkRat 1 2) 1) ∈
        (engineAddDocument (engineAddDocument emptyDB "a" "t" "alpha beta" "h").1
          "a" "t" "gamma" "h").1.index_entries ∧
    ∀ d ∈ (engineAddDocument (engineAddDocument emptyDB "a" "t" "alpha beta" "h").1
          "a" "t" "gamma" "h").1.documents, d.id ≠ 1 := by
  decide

/-- Claim C3 (amended): after adding and re-adding the same url through the
engine path, the postings that resolve to the url's current document are
exactly the second call's output; but the first call's postings remain in
`index_entries` under the orphaned first doc id, which resolves to no
document. -/
theorem claim3_theorem (db : DBState) (hwf : IndexBounded db)
    (url t1 c1 t2 c2 dom1 dom2 : String)
    (hu : url ≠ "") (hc1 : c1 ≠ "") (hc2 : c2 ≠ "") :
    postingsForUrl
        (engineAddDocument (engineAddDocument db url t1 c1 dom1).1 url t2 c2 dom2).1 url =
      newPostings (maxDocId db.documents + 1 + 1) t2 c2 ∧
    ∀ p ∈ newPostings (maxDocId db.documents + 1) t1 c1,
      p ∈ (engineAddDocument (engineAddDocument db url t1 c1 dom1).1
            url t2 c2 dom2).1.index_entries ∧
      ∀ d ∈ (engineAddDocument (engineAddDocument db url t1 c1 dom1).1
            url t2 c2 dom2).1.documents,
        d.id ≠ maxDocId db.documents + 1 := by
  have h1wf := engineAdd_bounded db hwf url t1 c1 dom1
  have h1docs := engineAdd_documents db url t1 c1 dom1 hu hc1
  have h1idx := engineAdd_index db hwf url t1 c1 dom1 hu hc1
  have h1max := engineAdd_maxDocId db url t1 c1 dom1 hu hc1
  have h2docs := engineAdd_documents (engineAddDocument db url t1 c1 dom1).1
    url t2 c2 dom2 hu hc2
  have h2idx := engineAdd_index (engineAddDocument db url t1 c1 dom1).1 h1wf
    url t2 c2 dom2 hu hc2
  rw [h1max] at h2docs h2idx
  constructor
  · unfold postingsForUrl
    rw [h2idx, h2docs, h1idx, h1docs]
    trans ((db.index_entries ++ newPostings (maxDocId db.documents + 1) t1 c1) ++
        newPostings (maxDocId db.documents + 1 + 1) t2 c2).filter
        (fun q : Posting => maxDocId db.documents + 1 + 1 == q.doc_id)
    · apply List.filter_congr
      intro q _
      have hA : ∀ d ∈ (db.documents.filter (fun d : DocRow => d.url != url) ++
          ([⟨maxDocId db.documents + 1, url, t1, c1, dom1, 1⟩] : List DocRow)).filter
            (fun d : DocRow => d.url != url), d.url ≠ url := by
        intro d hd
        have hne := List.of_mem_filter hd
        simpa using hne
      exact any_id_url _ _ url hA rfl q.doc_id
    · rw [List.filter_append, List.filter_append]
      have hold : db.index_entries.filter
          (fun q : Posting => maxDocId db.documents + 1 + 1 == q.doc_id) = [] := by
        rw [List.filter_eq_nil_iff]
        intro p hp
        have := hwf p hp
        simp only [beq_iff_eq]
        omega
      have hmid : (newPostings (maxDocId db.documents + 1) t1 c1).filter
          (fun q : Posting => maxDocId db.documents + 1 + 1 == q.doc_id) = [] := by
        rw [List.filter_eq_nil_iff]
        intro p hp
        rw [newPostings_doc_id hp]
        simp
      have hnew : (newPostings (maxDocId db.documents + 1 + 1) t2 c2).filter
          (fun q : Posting => maxDocId db.documents + 1 + 1 == q.doc_id) =
          newPostings (maxDocId db.documents + 1 + 1) t2 c2 := by
        rw [List.filter_eq_self]
        intro p hp
        rw [newPostings_doc_id hp]
        simp
      rw [hold, hmid, hnew, List.nil_append, List.nil_append]
  · intro p hp
    constructor
    · rw [h2idx, h1idx]
      exact List.mem_append.mpr (Or.inl (List.mem_append.mpr (Or.inr hp)))
    · intro d hd
      rw [h2docs, h1docs] at hd
      rcases List.mem_append.mp hd with h | h
      · have hne := List.of_mem_filter h
        simp only [bne_iff_ne, ne_eq] at hne
        rcases List.mem_append.mp (List.mem_of_mem_filter h) with h2 | h2
        · have := le_maxDocId_of_mem (List.mem_of_mem_filter h2)
          omega
        · simp only [List.mem_singleton] at h2
          subst h2
          exact absurd rfl hne
      · simp only [List.mem_singleton] at h
        subst h
        simp

/-- Witness for `claim3_theorem`: the two-call scenario of the
counterexample, instantiated on the empty store. -/
theorem claim3_witness :
    (postingsForUrl
        (engineAddDocument (engineAddDocument emptyDB "a" "t" "alpha beta" "h").1
          "a" "t" "gamma" "h").1 "a" =
      newPostings (maxDocId emptyDB.documents + 1 + 1) "t" "gamma" ∧
    ∀ p ∈ newPostings (maxDocId emptyDB.documents + 1) "t" "alpha beta",
      p ∈ (engineAddDocument (engineAddDocument emptyDB "a" "t" "alpha beta" "h").1
            "a" "t" "gamma" "h").1.index_entries ∧
      ∀ d ∈ (engineAddDocument (engineAddDocument emptyDB "a" "t" "alpha beta" "h").1
            "a" "t" "gamma" "h").1.documents,
        d.id ≠ maxDocId emptyDB.documents + 1) := by
  exact claim3_theorem emptyDB (by decide) "a" "t" "alpha beta" "t" "gamma" "h" "h"
    (by decide) (by decide) (by decide)

/-- Witness for `claim4_theorem` at a concrete indexed document. -/
theorem claim4_witness :
    ⟨"hello".toList, 1, mkRat 2 3, 1⟩ ∈
        (engineAddDocument emptyDB "u" "hello" "hello world" "h").1.index_entries ∧
    (⟨"hello".toList, 1, mkRat 2 3, 1⟩ ∈ (emptyDB).index_entries ∨
      (Posting.mk "hello".toList 1 (mkRat 2 3) 1).importance = 1) := by
  refine ⟨by decide, claim4_theorem emptyDB "u" "hello" "hello world" "h" _ (by decide)⟩

/-! ## Claim C5 -/

/-- Claim C5 counterexample: a page fetched by the crawl loop whose content
fingerprint (`"f1"`, under `constFingerprint`) is already in the fingerprint
table is nevertheless indexed — the document count goes from 0 to 1 — and
`skipped_duplicates` stays 0: `_crawl_thread` never consults the fingerprint
table. -/
theorem claim5_counterexample :
    constFingerprint (sampleExtract "hello world content" "http://h/2").2
        (sampleExtract "hello world content" "http://h/2").1 = "f1" ∧
    ({ sampleState with content_fingerprints := [("f1", "http://h/1")] }
      : CrawlerState).content_fingerprints.any (fun e => e.1 == "f1") = true ∧
    (crawl_thread_step sampleExtract [] sampleParse false (some true)
        (FetchOutcome.ok 200 "text/html" "hello world content") 0
        { sampleState with content_fingerprints := [("f1", "http://h/1")] }
        emptyDB "http://h/2" "h" 2 []).2.1.documents.length = 1 ∧
    (crawl_thread_step sampleExtract [] sampleParse false (some true)
        (FetchOutcome.ok 200 "text/html" "hello world content") 0
        { sampleState with content_fingerprints := [("f1", "http://h/1")] }
        emptyDB "http://h/2" "h" 2 []).1.crawl_stats.skipped_duplicates = 0 := by
  decide

/-- Claim C5 (amended): the duplicate-suppression contract holds on the
`_process_page` pipeline, which the current `_crawl_thread` does not invoke:
there, a known fingerprint leaves the store untouched (no document added),
increments `skipped_duplicates` by exactly 1, and keeps the fingerprint table
unchanged (first url wins). -/
theorem claim5_theorem (fp : String → String → String)
    (extract : String → String → String × String)
    (di : List (String × Int)) (parse : String → Option ParsedUrl) (force : Bool)
    (st : CrawlerState) (db : DBState) (url domain content contentType : String)
    (depth : Nat) (links : List (String × String))
    (hct : "text/html".toList.isPrefixOf (contentType.toList.map Char.toLower) = true)
    (hlen : 100 ≤ content.length)
    (hdup : st.content_fingerprints.any
      (fun e => e.1 == fp (extract content url).2 (extract content url).1) = true) :
    (process_page fp extract di parse force st db
        url domain content contentType depth links).2 = db ∧
    (process_page fp extract di parse force st db
        url domain content contentType depth links).1.crawl_stats.skipped_duplicates =
      st.crawl_stats.skipped_duplicates + 1 ∧
    (process_page fp extract di parse force st db
        url domain content contentType depth links).1.content_fingerprints =
      st.content_fingerprints := by
  have hnotlt : ¬ content.length < 100 := Nat.not_lt.mpr hlen
  have hfp : (countDomain st domain).content_fingerprints = st.content_fingerprints := by
    simp only [countDomain]
    split <;> rfl
  have hsk : (countDomain st domain).crawl_stats.skipped_duplicates =
      st.crawl_stats.skipped_duplicates := by
    simp only [countDomain]
    split <;> rfl
  have hcond : ((countDomain st domain).content_fingerprints.any
      (fun e => e.1 == fp (extract content url).2 (extract content url).1)) = true := by
    rw [hfp]; exact hdup
  have hr : is_duplicate_content (countDomain st domain)
      (fp (extract content url).2 (extract content url).1) url =
      (true, countDomain st domain) := by
    unfold is_duplicate_content
    rw [if_pos hcond]
  simp only [process_page]
  rw [if_neg (by rw [hct]; simp), if_neg hnotlt]
  have hr1 : (is_duplicate_content (countDomain st domain)
      (fp (extract content url).2 (extract content url).1) url).1 = true := by
    rw [hr]
  rw [if_pos hr1, hr]
  exact ⟨rfl, congrArg (fun n => n + 1) hsk, hfp⟩

/-- Witness for `claim5_theorem`: the counterexample page run through
`_process_page` instead of the crawl loop. -/
theorem claim5_witness :
    ("text/html".toList.isPrefixOf ("text/html".toList.map Char.toLower) = true ∧
      100 ≤ (String.mk (List.replicate 120 'x')).length ∧
      ({ sampleState with content_fingerprints := [("f1", "http://h/1")] }
        : CrawlerState).content_fingerprints.any
        (fun e => e.1 == constFingerprint
          (sampleExtract (String.mk (List.replicate 120 'x')) "http://h/2").2
          (sampleExtract (String.mk (List.replicate 120 'x')) "http://h/2").1) = true) ∧
    ((process_page constFingerprint sampleExtract [] sampleParse false
        { sampleState with content_fingerprints := [("f1", "http://h/1")] }
        emptyDB "http://h/2" "h" (String.mk (List.replicate 120 'x')) "text/html"
        2 []).2 = emptyDB ∧
      (process_page constFingerprint sampleExtract [] sampleParse false
        { sampleState with content_fingerprints := [("f1", "http://h/1")] }
        emptyDB "http://h/2" "h" (String.mk (List.replicate 120 'x')) "text/html"
        2 []).1.crawl_stats.skipped_duplicates =
        ({ sampleState with content_fingerprints := [("f1", "http://h/1")] }
          : CrawlerState).crawl_stats.skipped_duplicates + 1 ∧
      (process_page constFingerprint sampleExtract [] sampleParse false
        { sampleState with content_fingerprints := [("f1", "http://h/1")] }
        emptyDB "http://h/2" "h" (String.mk (List.replicate 120 'x')) "text/html"
        2 []).1.content_fingerprints =
        ({ sampleState with content_fingerprints := [("f1", "http://h/1")] }
          : CrawlerState).content_fingerprints) :=
  ⟨⟨by decide, by decide, by decide⟩,
    claim5_theorem constFingerprint sampleExtract [] sampleParse false
      { sampleState with content_fingerprints := [("f1", "http://h/1")] }
      emptyDB "http://h/2" "h" (String.mk (List.replicate 120 'x')) "text/html"
      2 [] (by decide) (by decide) (by decide)⟩

/-! ## Claim C6 -/

/-- Claim C6 counterexample: a robots-denied URL in the crawl loop triggers no
fetch and increments `robots_blocked`, but no Visit row is written — the
`crawler_visits` table stays empty (`mark_url_visited` is not called on this
path). -/
theorem claim6_counterexample :
    (crawl_thread_step sampleExtract [] sampleParse false (some false)
        FetchOutcome.exn 0 sampleState emptyDB "http://h/a" "h" 0 []).2.2 = false ∧
    (crawl_thread_step sampleExtract [] sampleParse false (some false)
        FetchOutcome.exn 0 sampleState emptyDB "http://h/a" "h" 0
        []).1.crawl_stats.robots_blocked = 1 ∧
    (crawl_thread_step sampleExtract [] sampleParse false (some false)
        FetchOutcome.exn 0 sampleState emptyDB "http://h/a" "h" 0
        []).2.1.crawler_visits = [] := by
  decide

/-- Claim C6 (amended): when robots denies a URL that reaches the robots gate
of the crawl loop, no fetch is performed, `robots_blocked` increments by
exactly 1, and the URL is added to the in-memory visited set — but the store
is left entirely unchanged, so no Visit row is recorded. -/
theorem claim6_theorem (extract : String → String → String × String)
    (di : List (String × Int)) (parse : String → Option ParsedUrl)
    (force : Bool) (fetch : FetchOutcome) (now : Int)
    (st : CrawlerState) (db : DBState) (url domain : String) (depth : Nat)
    (links : List (String × String))
    (hmem : st.visited_urls.contains url = false)
    (hdb : (!force && is_url_visited db url) = false) :
    crawl_thread_step extract di parse force (some false) fetch now
        st db url domain depth links =
      ({ st with
          crawl_stats := { st.crawl_stats with
            robots_blocked := st.crawl_stats.robots_blocked + 1,
            current_url := url },
          visited_urls := st.visited_urls ++ [url] }, db, false) := by
  have hmem2 : url ∉ st.visited_urls := by simpa using hmem
  simp [crawl_thread_step, hmem2, hdb]

/-- Witness for `claim6_theorem` on the counterexample inputs. -/
theorem claim6_witness :
    crawl_thread_step sampleExtract [] sampleParse false (some false)
        FetchOutcome.exn 0 sampleState emptyDB "http://h/a" "h" 0 [] =
      ({ sampleState with
          crawl_stats := { sampleState.crawl_stats with
            robots_blocked := sampleState.crawl_stats.robots_blocked + 1,
            current_url := "http://h/a" },
          visited_urls := sampleState.visited_urls ++ ["http://h/a"] },
        emptyDB, false) :=
  claim6_theorem sampleExtract [] sampleParse false FetchOutcome.exn 0
    sampleState emptyDB "http://h/a" "h" 0 [] (by decide) (by decide)

/-! ## Claim C8 -/

/-- Claim C8 (confirmed): for every successfully parsed URL the priority is
the clamp to `[1, 100]` of
`depth·10 − domain_importance[host] (0 if unknown) + query-segment count +
⌊path-segment count / 2⌋ − source_importance`, and for every input whatsoever
(parse failures included) the result lies in `[1, 100]`. -/
theorem claim8_theorem (di : List (String × Int)) (u : ParsedUrl) (depth : Nat)
    (s : Int) :
    compute_url_priority di (some u) depth s =
      max 1 (min 100 (((depth * 10 : Nat) : Int) - (lookupStr di u.netloc).getD 0 +
        ((if u.query == "" then 0 else (splitOnChar '&' u.query.toList).length : Nat) : Int) +
        (((splitOnChar '/' u.path.toList).length / 2 : Nat) : Int) - s)) ∧
    ∀ (parsed : Option ParsedUrl) (d : Nat) (si : Int),
      1 ≤ compute_url_priority di parsed d si ∧
      compute_url_priority di parsed d si ≤ 100 := by
  constructor
  · simp only [compute_url_priority]
    cases h : lookupStr di u.netloc <;> simp [h]
  · intro parsed d si
    cases parsed with
    | none => simp [compute_url_priority]
    | some v =>
      simp only [compute_url_priority]
      cases h : lookupStr di v.netloc <;> constructor <;> omega

/-! ## Claim C9 -/

/-- Re-inserting the saved entries restores the queue list. -/
theorem foldl_put (q acc : List QueueEntry) :
    q.foldl (fun acc item => acc ++ [item]) acc = acc ++ q := by
  induction q generalizing acc with
  | nil => simp
  | cons e q ih => simp [List.foldl_cons, ih]

/-- Claim C9 (confirmed): loading a saved snapshot into any crawler state
returns `True` and restores the visited set, the frontier entries with their
priorities, the stats counters, the per-host access times and the fingerprint
table verbatim; loading a missing or corrupt file returns `False`. -/
theorem claim9_theorem (st st0 : CrawlerState) :
    load_state st0 (save_state st).1 = (true, st) ∧
    (save_state st).2 = true ∧
    load_state st SnapshotFile.missing = (false, st) ∧
    load_state st SnapshotFile.corrupt = (false, st) := by
  refine ⟨?_, rfl, rfl, rfl⟩
  cases st with
  | mk v q cs da cf =>
    simp [load_state, save_state, foldl_put]

/-! ## Claim C10 -/

/-- Claim C10 counterexample: loading a record that holds `visited_urls` and
`queue` but lacks `crawl_stats` returns `False` yet overwrites the in-memory
visited set, so the state is not what it was before the call. -/
theorem claim10_counterexample :
    (load_state { sampleState with visited_urls := ["x"] }
        (SnapshotFile.record ⟨some [], some [], none, none, none⟩)).1 = false ∧
    (load_state { sampleState with visited_urls := ["x"] }
        (SnapshotFile.record ⟨some [], some [], none, none, none⟩)).2 ≠
      { sampleState with visited_urls := ["x"] } := by
  decide

/-- Claim C10 (amended): `load_state` leaves the state unchanged when the file
is missing, unreadable, or the record lacks `visited_urls` (failure before the
first assignment); but when restoration fails after that — e.g. the record
lacks `crawl_stats` — the fields already restored (`visited_urls`, `queue`)
keep their new values: restoration is not atomic. -/
theorem claim10_theorem (st : CrawlerState) :
    load_state st SnapshotFile.missing = (false, st) ∧
    load_state st SnapshotFile.corrupt = (false, st) ∧
    (∀ r : StateRecord, r.visited_urls = none →
      load_state st (SnapshotFile.record r) = (false, st)) ∧
    (∀ (v : List String) (q : List QueueEntry) (r : StateRecord),
      r.visited_urls = some v → r.queue = some q → r.crawl_stats = none →
      load_state st (SnapshotFile.record r) =
        (false, { st with visited_urls := v, queue := q })) := by
  refine ⟨rfl, rfl, ?_, ?_⟩
  · intro r hr
    cases r
    simp only at hr
    simp [load_state, hr]
  · intro v q r hv hq hcs
    cases r
    simp only at hv hq hcs
    simp [load_state, hv, hq, hcs, foldl_put]

/-- Witness for `claim10_theorem` on a record lacking `crawl_stats`. -/
theorem claim10_witness :
    load_state sampleState
        (SnapshotFile.record ⟨some ["a"], some [], none, none, none⟩) =
      (false, { sampleState with visited_urls := ["a"], queue := [] }) :=
  (claim10_theorem sampleState).2.2.2 ["a"] []
    ⟨some ["a"], some [], none, none, none⟩ rfl rfl rfl

/-! ## Claim C7 -/

theorem isPrefixOf_iff_take {a b : List Char} :
    a.isPrefixOf b = true ↔ b.take a.length = a := by
  rw [List.isPrefixOf_iff_prefix, List.prefix_iff_eq_take, eq_comm]

theorem pyIn_iff {needle hay : List Char} :
    pyIn needle hay = true ↔
      ∃ i, i ≤ hay.length ∧ (hay.drop i).take needle.length = needle := by
  induction hay with
  | nil =>
    rw [show pyIn needle [] = needle.isPrefixOf [] from rfl, isPrefixOf_iff_take]
    constructor
    · intro h
      exact ⟨0, Nat.le_refl _, h⟩
    · rintro ⟨i, hi, hocc⟩
      rw [List.drop_nil] at hocc
      exact hocc
  | cons c t ih =>
    rw [show pyIn needle (c :: t) =
        (needle.isPrefixOf (c :: t) || pyIn needle t) from rfl]
    rw [Bool.or_eq_true, ih, isPrefixOf_iff_take]
    constructor
    · rintro (h | ⟨i, hi, hocc⟩)
      · exact ⟨0, by simp, h⟩
      · refine ⟨i + 1, by simp; omega, hocc⟩
    · rintro ⟨i, hi, hocc⟩
      cases i with
      | zero => exact Or.inl hocc
      | succ j =>
        refine Or.inr ⟨j, ?_, hocc⟩
        simp at hi
        omega

theorem pyIn_intro {needle hay : List Char} (i : Nat)
    (h : (hay.drop i).take needle.length = needle) : pyIn needle hay = true := by
  rcases le_or_lt i hay.length with hle | hlt
  · exact pyIn_iff.mpr ⟨i, hle, h⟩
  · have hd : hay.drop i = [] := List.drop_eq_nil_of_le (Nat.le_of_lt hlt)
    rw [hd, List.take_nil] at h
    refine pyIn_iff.mpr ⟨hay.length, Nat.le_refl _, ?_⟩
    rw [List.drop_eq_nil_of_le (Nat.le_refl _), List.take_nil]
    exact h

theorem pyIn_nil (hay : List Char) : pyIn [] hay = true :=
  pyIn_intro 0 rfl

theorem pyIn_append_right {t l : List Char} (a : List Char)
    (h : pyIn t l = true) : pyIn t (a ++ l) = true := by
  obtain ⟨i, _, hsl⟩ := pyIn_iff.mp h
  apply pyIn_intro (a.length + i)
  rw [List.drop_append]
  exact hsl

theorem pyIn_append_left {t l : List Char} (b : List Char)
    (h : pyIn t l = true) : pyIn t (l ++ b) = true := by
  obtain ⟨i, _, hsl⟩ := pyIn_iff.mp h
  apply pyIn_intro i
  have hlen : t.length ≤ (l.drop i).length := by
    have := congrArg List.length hsl
    rw [List.length_take] at this
    omega
  rw [List.drop_append_eq_append_drop]
  rw [List.take_append_of_le_length]
  · exact hsl
  · exact hlen

/-- The window scan never returns less than any window's match count. -/
theorem bestStart_le (cl : List Char) (toks : List (List Char)) :
    ∀ n i, i < n → windowMatches cl toks i ≤ (bestStart cl toks n).2 := by
  intro n
  induction n with
  | zero => intro i hi; omega
  | succ n ih =>
    intro i hi
    have hstep : bestStart cl toks (n + 1) =
        (if windowMatches cl toks n > (bestStart cl toks n).2
          then (n, windowMatches cl toks n) else bestStart cl toks n) := by
      unfold bestStart
      rw [List.range_succ, List.foldl_append]
      rfl
    rcases Nat.lt_or_ge i n with hin | hin
    · have := ih i hin
      rw [hstep]
      split <;> simp <;> omega
    · have hieq : i = n := by omega
      subst hieq
      rw [hstep]
      split <;> simp <;> omega

/-- The returned maximum is 0 or the match count of the returned start. -/
theorem bestStart_snd (cl : List Char) (toks : List (List Char)) (n : Nat) :
    (bestStart cl toks n).2 = 0 ∨
      (bestStart cl toks n).2 =
        windowMatches cl toks (bestStart cl toks n).1 := by
  induction n with
  | zero => exact Or.inl rfl
  | succ n ih =>
    have hstep : bestStart cl toks (n + 1) =
        (if windowMatches cl toks n > (bestStart cl toks n).2
          then (n, windowMatches cl toks n) else bestStart cl toks n) := by
      unfold bestStart
      rw [List.range_succ, List.foldl_append]
      rfl
    rw [hstep]
    split
    · exact Or.inr rfl
    · exact ih

/-- The snippet is the core slice framed by optional ellipses. -/
theorem snippet_shape (content : List Char) (toks : List (List Char))
    (maxLen : Nat) (hne : content.isEmpty = false) :
    ∃ a b : List Char,
      generate_snippet content toks maxLen =
        a ++ ((content.drop
            ((bestStart (content.map Char.toLower) toks (content.length - 50)).1 - 20)).take
          (min content.length
              ((bestStart (content.map Char.toLower) toks (content.length - 50)).1 + maxLen) -
            ((bestStart (content.map Char.toLower) toks (content.length - 50)).1 - 20))) ++
          b := by
  simp only [generate_snippet, hne, Bool.false_eq_true, if_false]
  split
  · split
    · exact ⟨ellipsis, ellipsis, rfl⟩
    · exact ⟨[], ellipsis, rfl⟩
  · split
    · exact ⟨ellipsis, [], by rw [List.append_nil]⟩
    · exact ⟨[], [], by rw [List.nil_append, List.append_nil]⟩

/-- An occurrence inside the core slice survives into the lowered snippet. -/
theorem pyIn_core_to_snippet (content : List Char) (toks : List (List Char))
    (maxLen : Nat) (t2 : List Char) (hne : content.isEmpty = false)
    (h : pyIn t2
      (((content.map Char.toLower).drop
          ((bestStart (content.map Char.toLower) toks (content.length - 50)).1 - 20)).take
        (min content.length
            ((bestStart (content.map Char.toLower) toks (content.length - 50)).1 + maxLen) -
          ((bestStart (content.map Char.toLower) toks (content.length - 50)).1 - 20))) = true) :
    pyIn t2 ((generate_snippet content toks maxLen).map Char.toLower) = true := by
  obtain ⟨a, b, hab⟩ := snippet_shape content toks maxLen hne
  rw [hab, List.map_append, List.map_append]
  apply pyIn_append_left
  apply pyIn_append_right
  rw [List.map_take, List.map_drop]
  exact h

/-- Length part of claim C7 as amended: the snippet never exceeds
`max_length + 26` characters (up to 20 characters of left context beyond
`max_length`, plus two 3-character ellipses). -/
theorem snippet_len_le (content : List Char) (toks : List (List Char))
    (maxLen : Nat) :
    (generate_snippet content toks maxLen).length ≤ maxLen + 26 := by
  have he : ellipsis.length = 3 := rfl
  cases hc : content.isEmpty with
  | true => simp [generate_snippet, hc]
  | false =>
    simp only [generate_snippet, hc, Bool.false_eq_true, if_false]
    split <;> split <;>
      simp only [List.length_append, List.length_take, List.length_drop, he] <;>
      omega

/-- Containment part of claim C7 as amended: whenever some query term of at
most 100 characters occurs (case-insensitively) in the content and
`max_length ≥ 100`, the snippet contains a query term (case-insensitively). -/
theorem snippet_contains (content : List Char) (toks : List (List Char))
    (maxLen : Nat) (t : List Char) (ht : t ∈ toks) (htl : t.length ≤ 100)
    (hml : 100 ≤ maxLen) (hocc : pyIn t (content.map Char.toLower) = true) :
    ∃ t2 ∈ toks,
      pyIn t2 ((generate_snippet content toks maxLen).map Char.toLower) = true := by
  by_cases ht0 : t = []
  · exact ⟨t, ht, by rw [ht0]; exact pyIn_nil _⟩
  have hL : 1 ≤ t.length := by
    cases t with
    | nil => exact absurd rfl ht0
    | cons a l => simp
  have hcllen : (content.map Char.toLower).length = content.length :=
    List.length_map ..
  obtain ⟨p, hple, hslice⟩ := pyIn_iff.mp hocc
  have hpL : p + t.length ≤ content.length := by
    have hlenq := congrArg List.length hslice
    rw [List.length_take, List.length_drop, hcllen] at hlenq
    omega
  have hne : content.isEmpty = false := by
    cases content with
    | nil => exfalso; simp only [List.length_nil] at hpL; omega
    | cons c cs => rfl
  rcases le_or_lt content.length 50 with hle50 | hgt50
  · -- short content: the snippet is the whole content
    refine ⟨t, ht, pyIn_core_to_snippet content toks maxLen t hne ?_⟩
    have hn0 : content.length - 50 = 0 := by omega
    have hbs : (bestStart (content.map Char.toLower) toks (content.length - 50)).1 = 0 := by
      rw [hn0]; rfl
    rw [hbs]
    have hz : (0 : Nat) - 20 = 0 := rfl
    have hmin : min content.length (0 + maxLen) = content.length := by omega
    rw [hz, hmin, List.drop_zero, Nat.sub_zero, ← hcllen, List.take_length]
    exact hocc
  · -- long content: a window fully contains the occurrence
    set cl := content.map Char.toLower with hcl
    set n := content.length - 50 with hn
    set i0 := min p (content.length - 51) with hi0
    have hi0n : i0 < n := by omega
    have hoff : p - i0 + t.length ≤ 100 := by omega
    have hwin : (((cl.drop i0).take 100).drop (p - i0)).take t.length = t := by
      rw [List.drop_take, List.drop_drop]
      have h1 : i0 + (p - i0) = p := by omega
      rw [h1, List.take_take]
      have h2 : min t.length (100 - (p - i0)) = t.length := by omega
      rw [h2]
      exact hslice
    have hwm : 1 ≤ windowMatches cl toks i0 := by
      have hmem : t ∈ toks.filter (fun u => pyIn u ((cl.drop i0).take 100)) :=
        List.mem_filter.mpr ⟨ht, pyIn_intro (p - i0) hwin⟩
      have := List.length_pos.mpr (List.ne_nil_of_mem hmem)
      unfold windowMatches
      omega
    have hm1 : 1 ≤ (bestStart cl toks n).2 :=
      Nat.le_trans hwm (bestStart_le cl toks n i0 hi0n)
    have hmbs : (bestStart cl toks n).2 =
        windowMatches cl toks (bestStart cl toks n).1 := by
      rcases bestStart_snd cl toks n with h0 | h
      · omega
      · exact h
    set bs := (bestStart cl toks n).1 with hbs
    have hwmbs : 1 ≤ windowMatches cl toks bs := by
      rw [← hmbs]; exact hm1
    have hne2 : toks.filter (fun u => pyIn u ((cl.drop bs).take 100)) ≠ [] := by
      unfold windowMatches at hwmbs
      intro hnil
      rw [hnil] at hwmbs
      simp at hwmbs
    obtain ⟨t2, ht2f⟩ := List.exists_mem_of_ne_nil _ hne2
    have ht2p := List.mem_filter.mp ht2f
    have ht2 : t2 ∈ toks := ht2p.1
    have ht2win : pyIn t2 ((cl.drop bs).take 100) = true := ht2p.2
    by_cases ht20 : t2 = []
    · exact ⟨t2, ht2, by rw [ht20]; exact pyIn_nil _⟩
    have hL2 : 1 ≤ t2.length := by
      cases t2 with
      | nil => exact absurd rfl ht20
      | cons a l => simp
    obtain ⟨q, hqle, hq⟩ := pyIn_iff.mp ht2win
    have hq2 : (cl.drop (bs + q)).take (min t2.length (100 - q)) = t2 := by
      rw [List.drop_take, List.drop_drop, List.take_take] at hq
      exact hq
    have hqlen : q + t2.length ≤ 100 ∧ bs + q + t2.length ≤ content.length := by
      have hlenq := congrArg List.length hq2
      rw [List.length_take, List.length_drop, hcllen] at hlenq
      omega
    have ht2occ : (cl.drop (bs + q)).take t2.length = t2 := by
      have h2 : min t2.length (100 - q) = t2.length := by omega
      rw [h2] at hq2
      exact hq2
    refine ⟨t2, ht2, pyIn_core_to_snippet content toks maxLen t2 hne ?_⟩
    rw [← hcl, ← hn, ← hbs]
    apply pyIn_intro (bs + q - (bs - 20))
    rw [List.drop_take, List.drop_drop]
    have h1 : (bs - 20) + (bs + q - (bs - 20)) = bs + q := by omega
    rw [h1, List.take_take]
    have h2 : min t2.length
        (min content.length (bs + maxLen) - (bs - 20) - (bs + q - (bs - 20))) =
        t2.length := by omega
    rw [h2]
    exact ht2occ

set_option maxRecDepth 8000 in
set_option maxHeartbeats 1000000 in
/-- Claim C7 counterexample: on `cexContent` with the query term `cexToken`
(which occurs in the content) and the default `max_len = 160`, the generated
snippet is 186 characters long, exceeding the claimed bound
`max_len + 6 = 166`. -/
theorem claim7_counterexample :
    pyIn cexToken (cexContent.map Char.toLower) = true ∧
    ¬ (generate_snippet cexContent [cexToken] 160).length ≤ 160 + 6 := by
  decide

/-- Claim C7 (amended): the snippet length is bounded by `max_len + 26`
(the slice runs from `best_start - 20` to `best_start + max_len`, plus two
ellipses), and the snippet contains at least one query term whenever some
query term of at most 100 characters (the hard-coded window size) occurs
case-insensitively in the content and `max_len ≥ 100`. -/
theorem claim7_theorem (content : List Char) (query_tokens : List (List Char))
    (max_length : Nat) :
    (generate_snippet content query_tokens max_length).length ≤ max_length + 26 ∧
    ∀ t ∈ query_tokens, t.length ≤ 100 → 100 ≤ max_length →
      pyIn t (content.map Char.toLower) = true →
      ∃ t2 ∈ query_tokens,
        pyIn t2 ((generate_snippet content query_tokens max_length).map
          Char.toLower) = true :=
  ⟨snippet_len_le content query_tokens max_length,
    fun t ht htl hml hocc =>
      snippet_contains content query_tokens max_length t ht htl hml hocc⟩

/-- Witness for `claim7_theorem`: query `hello` against a short document. -/
theorem claim7_witness :
    (generate_snippet "xx hello yy".toList [
        "hello".toList] 160).length ≤ 160 + 26 ∧
    ∃ t2 ∈ ["hello".toList],
      pyIn t2 ((generate_snippet "xx hello yy".toList ["hello".toList] 160).map
        Char.toLower) = true :=
  ⟨ (claim7_theorem ("xx hello yy".toList) ["hello".toList] 160).1,
    (claim7_theorem ("xx hello yy".toList) ["hello".toList] 160).2
      ("hello".toList) (by decide) (by decide) (by decide) (by decide)⟩

end SearchRepo
